import Mathlib

/-!
Verification of the request-execution layer of a GitHub REST client
(`GitHubClient` in `src/client.ts`): constructor and credential fallback,
fixed-interval rate limiting, default/override header assembly, quota-header
capture, error classification and content-type based response decoding.

The TypeScript source is embedded shallowly: class fields become structure
fields, each mutable update becomes explicit state passing, JavaScript runtime
builtins (`parseInt`, `JSON.parse`, `JSON.stringify`, `URLSearchParams`,
truthiness coercion, template-literal stringification) are modelled as pure
Lean functions following the ECMAScript semantics the code relies on.
-/

/-! ### JavaScript primitive semantics -/

/-- Characters treated as leading whitespace by `parseInt` (the common ASCII
subset of ECMAScript StrWhiteSpace). -/
def isJsSpace (c : Char) : Bool :=
  c == ' ' || c == '\t' || c == '\n' || c == '\r' ||
  c.toNat == 11 || c.toNat == 12

/-- Digits to a natural number, most significant first. -/
def digitsToNat (cs : List Char) : Nat :=
  cs.foldl (fun acc c => acc * 10 + (c.toNat - 48)) 0

/-- `parseInt(s, 10)`: skip leading whitespace, optional sign, then the
longest prefix of decimal digits; no digits means `NaN`, modelled as
`none`.  (Precision loss of doubles beyond 2^53 is out of scope.) -/
def parseIntJS (s : String) : Option Int :=
  let cs := s.data.dropWhile isJsSpace
  let signAndRest : Int × List Char :=
    match cs with
    | '-' :: t => (-1, t)
    | '+' :: t => (1, t)
    | _ => (1, cs)
  let digits := signAndRest.2.takeWhile Char.isDigit
  if digits.isEmpty then none
  else some (signAndRest.1 * (digitsToNat digits : Int))

/-- Truthiness of a `string | undefined | null` value: `undefined`, `null`
and the empty string are falsy. -/
def strTruthy : Option String → Bool
  | none => false
  | some s => s != ""

/-- Truthiness of a `number | undefined` value holding an integer:
`undefined` and `0` are falsy.  (`NaN`, also falsy, does not arise for the
integer-valued parameters modelled with this helper.) -/
def intTruthy : Option Int → Bool
  | none => false
  | some n => n != 0

/-- Truthiness of a `number | undefined` value holding a rational:
`undefined` and `0` are falsy. -/
def ratTruthy : Option ℚ → Bool
  | none => false
  | some r => r != 0

/-! ### JSON values (the result type of `JSON.parse`) -/

/-- A parsed JSON value.  Numbers keep their source token (JSON numbers are
doubles in JavaScript; none of the verified properties depend on numeric
canonicalisation, and the token determines the double). -/
inductive JsonVal where
  | null : JsonVal
  | bool (b : Bool) : JsonVal
  | num (token : String) : JsonVal
  | str (s : String) : JsonVal
  | arr (elems : List JsonVal) : JsonVal
  | obj (members : List (String × JsonVal)) : JsonVal

/-- A numeric token denotes zero iff every mantissa digit is `0`
(e.g. `0`, `-0`, `0.00`, `0e5`). -/
def numTokenIsZero (t : String) : Bool :=
  (t.data.takeWhile (fun c => c != 'e' && c != 'E')).all
    (fun c => !c.isDigit || c == '0')

/-- ECMAScript ToBoolean on a parsed JSON value: `null`, `false`, zero and
the empty string are falsy; every object and array is truthy. -/
def jsTruthy : JsonVal → Bool
  | .null => false
  | .bool b => b
  | .num t => !numTokenIsZero t
  | .str s => s != ""
  | .arr _ => true
  | .obj _ => true

/-- Property read `v[k]` on a parsed JSON value: only objects have own data
properties; for duplicate keys the later member wins (as the later
assignment does during `JSON.parse` object construction). -/
def jsGetLast : List (String × JsonVal) → String → Option JsonVal
  | [], _ => none
  | kv :: rest, k =>
    match jsGetLast rest k with
    | some w => some w
    | none => if kv.1 = k then some kv.2 else none

/-- Property read `v.message`-style access: `undefined` (`none`) unless the
value is an object carrying the key. -/
def jsGetMember : JsonVal → String → Option JsonVal
  | .obj ms, k => jsGetLast ms k
  | _, _ => none

/-- Lower-case hex digit. -/
def hexDigitLower (n : Nat) : Char :=
  if n < 10 then Char.ofNat (48 + n) else Char.ofNat (87 + n)

/-- Upper-case hex digit. -/
def hexDigitUpper (n : Nat) : Char :=
  if n < 10 then Char.ofNat (48 + n) else Char.ofNat (55 + n)

/-- String-conversion of one JSON value as a template literal performs it
(`String(v)`): strings pass through, `null` prints as `null`, arrays join
their elements with commas (with `null` rendering empty inside an array),
objects print as `[object Object]`.  Numeric values print their source
token (which, for the integer tokens arising here, equals the canonical
double rendering). -/
def jsToDisplayString : JsonVal → String
  | .null => "null"
  | .bool b => if b then "true" else "false"
  | .num t => t
  | .str s => s
  | .arr es => jsArrayJoin es
  | .obj _ => "[object Object]"
where
  /-- `Array.prototype.toString`: elements stringified and comma-joined,
  `null` elements rendering as the empty string. -/
  jsArrayJoin : List JsonVal → String
  | [] => ""
  | e :: rest =>
    (match e with
     | .null => ""
     | v => jsToDisplayString v) ++
    (match rest with
     | [] => ""
     | _ => ",") ++ jsArrayJoin rest

/-! ### `JSON.parse` -/

/-- JSON insignificant whitespace. -/
def isJsonWs (c : Char) : Bool :=
  c == ' ' || c == '\t' || c == '\n' || c == '\r'

/-- Skip insignificant whitespace. -/
def skipWs (cs : List Char) : List Char := cs.dropWhile isJsonWs

/-- Hex digit value. -/
def hexVal (c : Char) : Option Nat :=
  let n := c.toNat
  if 48 ≤ n ∧ n ≤ 57 then some (n - 48)
  else if 97 ≤ n ∧ n ≤ 102 then some (n - 87)
  else if 65 ≤ n ∧ n ≤ 70 then some (n - 55)
  else none

/-- Prepend one decoded character to a parsed tail. -/
def consChar (c : Char) : Option (List Char × List Char) →
    Option (List Char × List Char)
  | some (s, r) => some (c :: s, r)
  | none => none

/-- Parse the remainder of a JSON string literal (after the opening quote),
returning the decoded characters and the rest of the input.  Handles the
eight escape sequences and `\uXXXX`, combining a surrogate pair into one
scalar; an unpaired surrogate or a raw control character makes the literal
invalid here (a harmless tightening: no verified property involves such
input). -/
def parseStringChars : List Char → Option (List Char × List Char)
  | [] => none
  | '"' :: rest => some ([], rest)
  | '\\' :: esc =>
    match esc with
    | '"' :: rest => consChar '"' (parseStringChars rest)
    | '\\' :: rest => consChar '\\' (parseStringChars rest)
    | '/' :: rest => consChar '/' (parseStringChars rest)
    | 'b' :: rest => consChar (Char.ofNat 8) (parseStringChars rest)
    | 'f' :: rest => consChar (Char.ofNat 12) (parseStringChars rest)
    | 'n' :: rest => consChar '\n' (parseStringChars rest)
    | 'r' :: rest => consChar '\r' (parseStringChars rest)
    | 't' :: rest => consChar '\t' (parseStringChars rest)
    | 'u' :: a :: b :: c :: d :: rest =>
      match hexVal a, hexVal b, hexVal c, hexVal d with
      | some ha, some hb, some hc, some hd =>
        let n := ((ha * 16 + hb) * 16 + hc) * 16 + hd
        if 0xD800 ≤ n ∧ n ≤ 0xDBFF then
          match rest with
          | '\\' :: 'u' :: e :: f :: g :: h :: rest2 =>
            match hexVal e, hexVal f, hexVal g, hexVal h with
            | some he, some hf, some hg, some hh =>
              let m := ((he * 16 + hf) * 16 + hg) * 16 + hh
              if 0xDC00 ≤ m ∧ m ≤ 0xDFFF then
                consChar (Char.ofNat (0x10000 + (n - 0xD800) * 0x400 + (m - 0xDC00)))
                  (parseStringChars rest2)
              else none
            | _, _, _, _ => none
          | _ => none
        else if 0xDC00 ≤ n ∧ n ≤ 0xDFFF then none
        else consChar (Char.ofNat n) (parseStringChars rest)
      | _, _, _, _ => none
    | _ => none
  | c :: rest =>
    if c.toNat < 0x20 then none else consChar c (parseStringChars rest)

/-- Parse a JSON string literal body and pack it as a `String`. -/
def parseStringRest (cs : List Char) : Option (String × List Char) :=
  match parseStringChars cs with
  | some (s, r) => some (String.mk s, r)
  | none => none

/-- Parse a JSON number token (strict JSON grammar: optional minus, no
leading zeros, optional fraction and exponent), returning the token and
the rest. -/
def parseNumberToken (cs : List Char) : Option (JsonVal × List Char) :=
  let signed : List Char × List Char :=
    match cs with
    | '-' :: t => (['-'], t)
    | _ => ([], cs)
  match parseIntPart signed.2 with
  | none => none
  | some (ip, r1) =>
    let fr : List Char × List Char :=
      match r1 with
      | '.' :: t =>
        let ds := t.takeWhile Char.isDigit
        if ds.isEmpty then ([], r1) else ('.' :: ds, t.dropWhile Char.isDigit)
      | _ => ([], r1)
    match parseExpPart fr.2 with
    | none => none
    | some (ex, r3) =>
      some (.num (String.mk (signed.1 ++ ip ++ fr.1 ++ ex)), r3)
where
  /-- Integer part: `0` or a nonzero digit followed by digits. -/
  parseIntPart : List Char → Option (List Char × List Char)
  | '0' :: t => some (['0'], t)
  | c :: t =>
    if c.isDigit then
      some (c :: t.takeWhile Char.isDigit, t.dropWhile Char.isDigit)
    else none
  | [] => none
  /-- Exponent part, possibly empty. -/
  parseExpPart : List Char → Option (List Char × List Char)
  | 'e' :: t => parseExpTail 'e' t
  | 'E' :: t => parseExpTail 'E' t
  | r => some ([], r)
  /-- Sign and digits of an exponent. -/
  parseExpTail (e : Char) : List Char → Option (List Char × List Char)
  | '+' :: t =>
    let ds := t.takeWhile Char.isDigit
    if ds.isEmpty then none else some (e :: '+' :: ds, t.dropWhile Char.isDigit)
  | '-' :: t =>
    let ds := t.takeWhile Char.isDigit
    if ds.isEmpty then none else some (e :: '-' :: ds, t.dropWhile Char.isDigit)
  | t =>
    let ds := t.takeWhile Char.isDigit
    if ds.isEmpty then none else some (e :: ds, t.dropWhile Char.isDigit)

mutual

/-- Parse one JSON value (fuelled recursive descent; the fuel bounds
nesting depth and is instantiated with the input length, which suffices
since every nesting level consumes at least one character). -/
def parseValue : Nat → List Char → Option (JsonVal × List Char)
  | 0, _ => none
  | Nat.succ fuel, cs =>
    match skipWs cs with
    | '\x7b' :: rest => parseObjBody fuel rest
    | '[' :: rest => parseArrBody fuel rest
    | '"' :: rest =>
      match parseStringRest rest with
      | some (s, r) => some (.str s, r)
      | none => none
    | 't' :: 'r' :: 'u' :: 'e' :: rest => some (.bool true, rest)
    | 'f' :: 'a' :: 'l' :: 's' :: 'e' :: rest => some (.bool false, rest)
    | 'n' :: 'u' :: 'l' :: 'l' :: rest => some (.null, rest)
    | other => parseNumberToken other

/-- Parse an object body after the opening brace. -/
def parseObjBody : Nat → List Char → Option (JsonVal × List Char)
  | 0, _ => none
  | Nat.succ fuel, cs =>
    match skipWs cs with
    | '\x7d' :: rest => some (.obj [], rest)
    | _ => parseMembers fuel cs []

/-- Parse one or more `"key": value` members and the closing brace. -/
def parseMembers : Nat → List Char → List (String × JsonVal) →
    Option (JsonVal × List Char)
  | 0, _, _ => none
  | Nat.succ fuel, cs, acc =>
    match skipWs cs with
    | '"' :: rest =>
      match parseStringRest rest with
      | some (key, r1) =>
        match skipWs r1 with
        | ':' :: r2 =>
          match parseValue fuel r2 with
          | some (v, r3) =>
            match skipWs r3 with
            | ',' :: r4 => parseMembers fuel r4 (acc ++ [(key, v)])
            | '\x7d' :: r4 => some (.obj (acc ++ [(key, v)]), r4)
            | _ => none
          | none => none
        | _ => none
      | none => none
    | _ => none

/-- Parse an array body after the opening bracket. -/
def parseArrBody : Nat → List Char → Option (JsonVal × List Char)
  | 0, _ => none
  | Nat.succ fuel, cs =>
    match skipWs cs with
    | ']' :: rest => some (.arr [], rest)
    | _ => parseElems fuel cs []

/-- Parse one or more array elements and the closing bracket. -/
def parseElems : Nat → List Char → List JsonVal →
    Option (JsonVal × List Char)
  | 0, _, _ => none
  | Nat.succ fuel, cs, acc =>
    match parseValue fuel cs with
    | some (v, r1) =>
      match skipWs r1 with
      | ',' :: r2 => parseElems fuel r2 (acc ++ [v])
      | ']' :: r2 => some (.arr (acc ++ [v]), r2)
      | _ => none
    | none => none

end

/-- `JSON.parse`: parse one value, requiring only whitespace afterwards;
`none` models the thrown `SyntaxError`. -/
def jsonParse (s : String) : Option JsonVal :=
  match parseValue (s.length + 1) s.data with
  | some (v, rest) => if (skipWs rest).isEmpty then some v else none
  | none => none

/-! ### `JSON.stringify` -/

/-- Escape one character for a JSON string literal as `JSON.stringify`
does: quote, backslash and the named control characters get two-character
escapes, other control characters a lower-case `\u00xx` escape. -/
def escapeJsonChar (c : Char) : List Char :=
  if c = '"' then ['\\', '"']
  else if c = '\\' then ['\\', '\\']
  else if c = Char.ofNat 8 then ['\\', 'b']
  else if c = Char.ofNat 12 then ['\\', 'f']
  else if c = '\n' then ['\\', 'n']
  else if c = '\r' then ['\\', 'r']
  else if c = '\t' then ['\\', 't']
  else if c.toNat < 0x20 then
    ['\\', 'u', '0', '0', hexDigitLower (c.toNat / 16), hexDigitLower (c.toNat % 16)]
  else [c]

/-- Serialize a string as a JSON string literal. -/
def escapeJsonString (s : String) : String :=
  "\"" ++ String.mk (s.data.flatMap escapeJsonChar) ++ "\""

mutual

/-- `JSON.stringify` on a parsed JSON value (no indentation argument). -/
def jsonStringify : JsonVal → String
  | .null => "null"
  | .bool b => if b then "true" else "false"
  | .num t => t
  | .str s => escapeJsonString s
  | .arr es => "[" ++ stringifyElems es ++ "]"
  | .obj ms => "\x7b" ++ stringifyMembers ms ++ "\x7d"

/-- Comma-joined serialized array elements. -/
def stringifyElems : List JsonVal → String
  | [] => ""
  | [e] => jsonStringify e
  | e :: rest => jsonStringify e ++ "," ++ stringifyElems rest

/-- Comma-joined serialized object members. -/
def stringifyMembers : List (String × JsonVal) → String
  | [] => ""
  | [kv] => escapeJsonString kv.1 ++ ":" ++ jsonStringify kv.2
  | kv :: rest => escapeJsonString kv.1 ++ ":" ++ jsonStringify kv.2 ++ "," ++
      stringifyMembers rest

end

/-! ### `URLSearchParams` -/

/-- Characters serialized verbatim by the `application/x-www-form-urlencoded`
serializer: ASCII alphanumerics and `*`, `-`, `.`, `_`. -/
def isFormSafe (c : Char) : Bool :=
  c.isAlphanum && c.toNat < 128 || c == '*' || c == '-' || c == '.' || c == '_'

/-- UTF-8 bytes of one character. -/
def utf8Bytes (c : Char) : List Nat :=
  let n := c.toNat
  if n < 0x80 then [n]
  else if n < 0x800 then [0xC0 + n / 0x40, 0x80 + n % 0x40]
  else if n < 0x10000 then
    [0xE0 + n / 0x1000, 0x80 + (n / 0x40) % 0x40, 0x80 + n % 0x40]
  else
    [0xF0 + n / 0x40000, 0x80 + (n / 0x1000) % 0x40, 0x80 + (n / 0x40) % 0x40,
     0x80 + n % 0x40]

/-- Percent-encode one byte with upper-case hex digits. -/
def percentByte (b : Nat) : List Char :=
  ['%', hexDigitUpper (b / 16), hexDigitUpper (b % 16)]

/-- `application/x-www-form-urlencoded` encoding of one string: safe
characters pass through, space becomes `+`, everything else is
percent-encoded by UTF-8 byte. -/
def formEncode (s : String) : String :=
  String.mk (s.data.flatMap fun c =>
    if c == ' ' then ['+']
    else if isFormSafe c then [c]
    else (utf8Bytes c).flatMap percentByte)

/-- `URLSearchParams.toString()` on an ordered key/value list. -/
def queryToString (pairs : List (String × String)) : String :=
  String.intercalate "&" (pairs.map fun p => formEncode p.1 ++ "=" ++ formEncode p.2)

/-! ### JavaScript string-keyed records (header objects) -/

/-- Read a key from a string record modelled as an insertion-ordered
association list with unique keys. -/
def jsObjGet : List (String × String) → String → Option String
  | [], _ => none
  | p :: rest, k => if p.1 = k then some p.2 else jsObjGet rest k

/-- Write a key: updating an existing key keeps its position (as JavaScript
property assignment does); a new key is appended. -/
def jsObjSet : List (String × String) → String → String → List (String × String)
  | [], k, v => [(k, v)]
  | p :: rest, k, v =>
    if p.1 = k then (k, v) :: rest else p :: jsObjSet rest k v

/-- Object spread `\x7b ...base, ...overrides \x7d`: each override entry is
assigned over the accumulated record in order. -/
def jsObjMerge (base overrides : List (String × String)) : List (String × String) :=
  overrides.foldl (fun m kv => jsObjSet m kv.1 kv.2) base

/-! ### Fetch response headers -/

/-- ASCII lower-casing of a header name. -/
def asciiLower (s : String) : String := String.mk (s.data.map Char.toLower)

/-- `Headers.get(name)`: case-insensitive lookup; multiple headers with the
same name are combined with a comma-space separator; absent names give
`null`. -/
def getHeaderCI (headers : List (String × String)) (name : String) : Option String :=
  match headers.filter (fun p => asciiLower p.1 == asciiLower name) with
  | [] => none
  | ms => some (String.intercalate ", " (ms.map Prod.snd))

/-- Does `s` begin with `sub`? -/
def startsWithChars : List Char → List Char → Bool
  | [], _ => true
  | _ :: _, [] => false
  | a :: as, b :: bs => a == b && startsWithChars as bs

/-- Does `s` contain `sub` anywhere? -/
def hasSubstrChars (sub : List Char) : List Char → Bool
  | [] => startsWithChars sub []
  | c :: rest => startsWithChars sub (c :: rest) || hasSubstrChars sub rest

/-- `s.includes(sub)`. -/
def containsSubstr (s sub : String) : Bool :=
  hasSubstrChars sub.data s.data

/-! ### Client data model (`GitHubClientConfig`, `RateLimitInfo`, `GitHubClient`) -/

/-- `Partial<GitHubClientConfig>`: every field optional.  `rateLimit` is a
JavaScript number, modelled as a rational (a finite double; `NaN` never
arises in the verified properties). -/
structure GitHubClientConfig where
  token : Option String
  baseURL : Option String
  rateLimit : Option ℚ
deriving DecidableEq

/-- The quota snapshot built from `parseInt` of the three rate-limit
headers.  A field is `none` when `parseInt` returned `NaN` for it. -/
structure RateLimitInfo where
  limit : Option Int
  remaining : Option Int
  reset : Option Int
deriving DecidableEq

/-- The client: the three immutable constructor-set fields and the two
mutable fields (`lastRequestTime`, initialised to `0`, and
`rateLimitInfo`, initialised to `null`).  Times are milliseconds as
rationals. -/
structure GitHubClient where
  token : String
  baseURL : String
  rateLimit : ℚ
  lastRequestTime : ℚ
  rateLimitInfo : Option RateLimitInfo
deriving DecidableEq

/-- The construction-failure message thrown when no token is resolvable. -/
def tokenRequiredMsg : String :=
  "GitHub token is required. Set GITHUB_TOKEN environment variable."

/-- `new GitHubClient(config)`: `config?.token || process.env.GITHUB_TOKEN`
with a truthiness test, throw on a falsy result, then defaulting of
`baseURL` and `rateLimit` by `||`.  `envToken` is the value of
`process.env.GITHUB_TOKEN` (`none` when unset). -/
def mkClient (config : Option GitHubClientConfig) (envToken : Option String) :
    Except String GitHubClient :=
  let configToken := config.bind (·.token)
  let token := if strTruthy configToken then configToken else envToken
  if strTruthy token then
    let configBase := config.bind (·.baseURL)
    let configRate := config.bind (·.rateLimit)
    Except.ok
      { token := token.getD ""
        baseURL := if strTruthy configBase then configBase.getD ""
                   else "https://api.github.com"
        rateLimit := if ratTruthy configRate then (configRate.getD 0) else 10
        lastRequestTime := 0
        rateLimitInfo := none }
  else
    Except.error tokenRequiredMsg

/-! ### `rateLimitDelay` -/

/-- One call of `rateLimitDelay`, returning the `setTimeout` argument and
the new `lastRequestTime`.  `now` is the first `Date.now()` reading;
`slack` (nonnegative in any real execution) is the extra time between
`now + sleep` and the second `Date.now()` reading at line 43 — `setTimeout`
never fires early, and reading the clock takes nonnegative time.  With
`slack = 0` this is the idealised schedule. -/
def rateLimitDelay (rateLimit lastRequestTime now slack : ℚ) : ℚ × ℚ :=
  let timeSinceLastRequest := now - lastRequestTime
  let minDelay := 1000 / rateLimit
  let sleep :=
    if timeSinceLastRequest < minDelay then minDelay - timeSinceLastRequest else 0
  (sleep, now + sleep + slack)

/-- Iterate `rateLimitDelay` over a sequence of calls, listing the
successive stored `lastRequestTime` values.  Each call is given by its
first `Date.now()` reading and its slack. -/
def runThrottle (rate : ℚ) : ℚ → List (ℚ × ℚ) → List ℚ
  | _, [] => []
  | last, c :: rest =>
    let next := (rateLimitDelay rate last c.1 c.2).2
    next :: runThrottle rate next rest

/-- A call sequence is realizable when every call's clock reading is no
earlier than the previous stored timestamp (the clock does not go
backwards across sequential calls) and every slack is nonnegative. -/
def validCalls (rate : ℚ) : ℚ → List (ℚ × ℚ) → Bool
  | _, [] => true
  | last, c :: rest =>
    decide (last ≤ c.1) && decide (0 ≤ c.2) &&
      validCalls rate (rateLimitDelay rate last c.1 c.2).2 rest

/-! ### Error classification (lines 85–94 of `request`) -/

/-- The message-extraction of the error branch: `JSON.parse` the body in a
`try`, take `errorData.message || errorText`, and on a parse throw fall
back to the raw text. -/
def extractErrorMessage (errorText : String) : String :=
  match jsonParse errorText with
  | some errorData =>
    match jsGetMember errorData "message" with
    | some m => if jsTruthy m then jsToDisplayString m else errorText
    | none => errorText
  | none => errorText

/-- The thrown failure message:
`` `GitHub API error (${response.status}): ${errorMessage}` ``. -/
def classifyError (status : Nat) (errorText : String) : String :=
  "GitHub API error (" ++ Nat.repr status ++ "): " ++ extractErrorMessage errorText

/-! ### Request assembly and execution -/

/-- `response.ok`: status in the inclusive range 200–299. -/
def responseOk (status : Nat) : Bool :=
  decide (200 ≤ status) && decide (status ≤ 299)

/-- The default headers object of `request` before the spread of
`customHeaders`. -/
def defaultHeaders (token : String) : List (String × String) :=
  [("Authorization", "Bearer " ++ token),
   ("Accept", "application/vnd.github+json"),
   ("X-GitHub-Api-Version", "2022-11-28")]

/-- The headers object passed to `fetch`: defaults, spread of the custom
headers over them, then the conditional `Content-Type` assignment when a
body is present. -/
def buildHeaders (token : String) (customHeaders : List (String × String))
    (hasBody : Bool) : List (String × String) :=
  let merged := jsObjMerge (defaultHeaders token) customHeaders
  if hasBody then jsObjSet merged "Content-Type" "application/json" else merged

/-- An HTTP response as `request` observes it: numeric status, header list,
body text. -/
structure HttpResponse where
  status : Nat
  headers : List (String × String)
  body : String

/-- What `request` returns to its caller. -/
inductive RequestOutcome where
  | ok (v : JsonVal) : RequestOutcome
  | okText (s : String) : RequestOutcome
  | apiError (message : String) : RequestOutcome
  | jsonSyntaxError : RequestOutcome

/-- The dispatched HTTP exchange as handed to `fetch`. -/
structure DispatchRecord where
  url : String
  method : String
  headers : List (String × String)
  body : Option String

/-- Externally visible steps of one `request` call, in order. -/
inductive Event where
  | throttle (sleepMs : ℚ) : Event
  | dispatch (d : DispatchRecord) : Event

/-- Result of one `request` call: the updated client, the outcome, and the
ordered event trace. -/
structure RequestResult where
  client : GitHubClient
  outcome : RequestOutcome
  trace : List Event

/-- `GitHubClient.request`:  throttle, assemble URL and headers, dispatch,
capture the three quota headers behind a truthiness gate, then classify a
failure or decode a success by content type.  `now`/`slack` feed the
throttle; `resp` is the transport's response. -/
def request (c : GitHubClient) (now slack : ℚ) (method path : String)
    (body : Option JsonVal) (customHeaders : List (String × String))
    (resp : HttpResponse) : RequestResult :=
  let throttled := rateLimitDelay c.rateLimit c.lastRequestTime now slack
  let url := c.baseURL ++ path
  let hasBody := match body with
    | some b => jsTruthy b
    | none => false
  let headers := buildHeaders c.token customHeaders hasBody
  let sentBody := if hasBody then body.map jsonStringify else none
  let limitH := getHeaderCI resp.headers "X-RateLimit-Limit"
  let remainingH := getHeaderCI resp.headers "X-RateLimit-Remaining"
  let resetH := getHeaderCI resp.headers "X-RateLimit-Reset"
  let newInfo :=
    if strTruthy limitH && strTruthy remainingH && strTruthy resetH then
      some { limit := parseIntJS (limitH.getD "")
             remaining := parseIntJS (remainingH.getD "")
             reset := parseIntJS (resetH.getD "") }
    else c.rateLimitInfo
  let outcome :=
    if responseOk resp.status then
      match getHeaderCI resp.headers "content-type" with
      | some ct =>
        if containsSubstr ct "application/json" then
          match jsonParse resp.body with
          | some v => RequestOutcome.ok v
          | none => RequestOutcome.jsonSyntaxError
        else RequestOutcome.okText resp.body
      | none => RequestOutcome.okText resp.body
    else
      RequestOutcome.apiError (classifyError resp.status resp.body)
  { client := { c with lastRequestTime := throttled.2, rateLimitInfo := newInfo }
    outcome := outcome
    trace := [Event.throttle throttled.1,
              Event.dispatch ⟨url, method, headers, sentBody⟩] }

/-! ### Resource operation: `listUserRepos` -/

/-- The optional parameter object of `listUserRepos`
(`PaginationParams & \x7b type?: string; sort?: string \x7d`). -/
structure ListUserReposParams where
  page : Option Int
  per_page : Option Int
  type : Option String
  sort : Option String

/-- The path built by `listUserRepos`: each parameter is added to the
`URLSearchParams` only when truthy (in source order `page`, `per_page`,
`type`, `sort`), and a `?` is prefixed only when the serialized query is
nonempty. -/
def listUserReposPath (params : Option ListUserReposParams) : String :=
  let qp0 : List (String × String) := []
  let qp1 := if intTruthy (params.bind (·.page)) then
      qp0 ++ [("page", Int.repr ((params.bind (·.page)).getD 0))] else qp0
  let qp2 := if intTruthy (params.bind (·.per_page)) then
      qp1 ++ [("per_page", Int.repr ((params.bind (·.per_page)).getD 0))] else qp1
  let qp3 := if strTruthy (params.bind (·.type)) then
      qp2 ++ [("type", (params.bind (·.type)).getD "")] else qp2
  let qp4 := if strTruthy (params.bind (·.sort)) then
      qp3 ++ [("sort", (params.bind (·.sort)).getD "")] else qp3
  let query := queryToString qp4
  "/user/repos" ++ (if query != "" then "?" ++ query else "")

/-- `listUserRepos`: delegate to `request` with method GET, the assembled
path, no body and no custom headers. -/
def listUserRepos (c : GitHubClient) (now slack : ℚ)
    (params : Option ListUserReposParams) (resp : HttpResponse) : RequestResult :=
  request c now slack "GET" (listUserReposPath params) none [] resp

/-! ### Helper lemmas -/

theorem parseIntJS_empty : parseIntJS "" = none := rfl

theorem parseIntJS_ne_empty {s : String} {n : Int} (h : parseIntJS s = some n) :
    s ≠ "" := by
  intro hs
  rw [hs, parseIntJS_empty] at h
  exact Option.noConfusion h

theorem startsWithChars_self_append (sub t : List Char) :
    startsWithChars sub (sub ++ t) = true := by
  induction sub with
  | nil => rfl
  | cons a as ih => simp [startsWithChars, ih]

theorem hasSubstrChars_of_starts {sub s : List Char}
    (h : startsWithChars sub s = true) : hasSubstrChars sub s = true := by
  cases s with
  | nil => exact h
  | cons c rest => simp [hasSubstrChars, h]

theorem hasSubstrChars_append (a sub b : List Char) :
    hasSubstrChars sub (a ++ (sub ++ b)) = true := by
  induction a with
  | nil => exact hasSubstrChars_of_starts (startsWithChars_self_append sub b)
  | cons c rest ih => simp [hasSubstrChars, ih]

theorem containsSubstr_append_middle (x y z : String) :
    containsSubstr (x ++ (y ++ z)) y = true := by
  unfold containsSubstr
  rw [String.data_append, String.data_append]
  exact hasSubstrChars_append x.data y.data z.data

theorem append_ne_empty_left (s t : String) (h : s ≠ "") : s ++ t ≠ "" := by
  intro he
  apply h
  have hd : s.data ++ t.data = [] := by
    rw [← String.data_append, he]
  cases hs : s.data with
  | nil => cases s; cases t; simp_all
  | cons c rest => rw [hs] at hd; exact List.noConfusion hd

theorem jsObjGet_set_self (m : List (String × String)) (k v : String) :
    jsObjGet (jsObjSet m k v) k = some v := by
  induction m with
  | nil => simp [jsObjSet, jsObjGet]
  | cons p rest ih =>
    by_cases h : p.1 = k
    · simp [jsObjSet, jsObjGet, h]
    · simp [jsObjSet, jsObjGet, h, ih]

theorem jsObjGet_set_ne (m : List (String × String)) (k v k' : String)
    (h : k' ≠ k) : jsObjGet (jsObjSet m k v) k' = jsObjGet m k' := by
  have hne : k ≠ k' := Ne.symm h
  induction m with
  | nil => simp [jsObjSet, jsObjGet, hne]
  | cons p rest ih =>
    by_cases hp : p.1 = k
    · subst hp
      simp [jsObjSet, jsObjGet, hne]
    · simp [jsObjSet, hp, jsObjGet, ih]

theorem jsObjGet_eq_none_of_not_mem (m : List (String × String)) (k : String)
    (h : k ∉ m.map Prod.fst) : jsObjGet m k = none := by
  induction m with
  | nil => rfl
  | cons p rest ih =>
    simp only [List.map_cons, List.mem_cons] at h
    push_neg at h
    simp [jsObjGet, Ne.symm h.1, ih h.2]

theorem jsObjMerge_get_of_none (base ov : List (String × String)) (k : String)
    (h : jsObjGet ov k = none) :
    jsObjGet (jsObjMerge base ov) k = jsObjGet base k := by
  induction ov generalizing base with
  | nil => rfl
  | cons p rest ih =>
    by_cases hp : p.1 = k
    · simp [jsObjGet, hp] at h
    · simp only [jsObjGet, hp, if_false] at h
      show jsObjGet (jsObjMerge (jsObjSet base p.1 p.2) rest) k = jsObjGet base k
      rw [ih _ h, jsObjGet_set_ne _ _ _ _ (fun he => hp he.symm)]

theorem jsObjMerge_get_of_some (base ov : List (String × String)) (k v : String)
    (hnd : (ov.map Prod.fst).Nodup) (h : jsObjGet ov k = some v) :
    jsObjGet (jsObjMerge base ov) k = some v := by
  induction ov generalizing base with
  | nil => exact Option.noConfusion h
  | cons p rest ih =>
    simp only [List.map_cons, List.nodup_cons] at hnd
    by_cases hp : p.1 = k
    · simp only [jsObjGet, hp, if_true, Option.some.injEq] at h
      subst h
      have hrest : jsObjGet rest k = none := by
        apply jsObjGet_eq_none_of_not_mem
        rw [← hp]
        exact hnd.1
      show jsObjGet (jsObjMerge (jsObjSet base p.1 p.2) rest) k = some p.2
      rw [jsObjMerge_get_of_none _ _ _ hrest, hp, jsObjGet_set_self]
    · simp only [jsObjGet, hp, if_false] at h
      exact ih _ hnd.2 h

theorem buildHeaders_get_not_content_type (tok : String)
    (custom : List (String × String)) (hasBody : Bool) (k : String)
    (hk : k ≠ "Content-Type") :
    jsObjGet (buildHeaders tok custom hasBody) k =
      jsObjGet (jsObjMerge (defaultHeaders tok) custom) k := by
  unfold buildHeaders
  cases hasBody with
  | false => rfl
  | true => exact jsObjGet_set_ne _ _ _ _ hk

theorem throttle_step_sep (rate last now slack : ℚ) (hnow : last ≤ now)
    (hs : 0 ≤ slack) :
    last + 1000 / rate ≤ (rateLimitDelay rate last now slack).2 := by
  unfold rateLimitDelay
  dsimp only
  by_cases h : now - last < 1000 / rate
  · rw [if_pos h]; linarith
  · rw [if_neg h]; push_neg at h; linarith

theorem throttle_step_mono (rate last now slack : ℚ) (hnow : last ≤ now)
    (hs : 0 ≤ slack) :
    last ≤ (rateLimitDelay rate last now slack).2 := by
  unfold rateLimitDelay
  dsimp only
  by_cases h : now - last < 1000 / rate
  · rw [if_pos h]; linarith
  · rw [if_neg h]; linarith

theorem validCalls_cons {rate last : ℚ} {c : ℚ × ℚ} {rest : List (ℚ × ℚ)}
    (h : validCalls rate last (c :: rest) = true) :
    last ≤ c.1 ∧ 0 ≤ c.2 ∧
      validCalls rate (rateLimitDelay rate last c.1 c.2).2 rest = true := by
  simp only [validCalls, Bool.and_eq_true, decide_eq_true_eq] at h
  exact ⟨h.1.1, h.1.2, h.2⟩

theorem runThrottle_chain_sep (rate : ℚ) (calls : List (ℚ × ℚ)) :
    ∀ last : ℚ, validCalls rate last calls = true →
    List.Chain' (fun a b => a + 1000 / rate ≤ b)
      (last :: runThrottle rate last calls) := by
  induction calls with
  | nil => intro last _; simp [runThrottle]
  | cons c rest ih =>
    intro last h
    obtain ⟨h1, h2, h3⟩ := validCalls_cons h
    simp only [runThrottle]
    rw [List.chain'_cons]
    exact ⟨throttle_step_sep rate last c.1 c.2 h1 h2, ih _ h3⟩

theorem runThrottle_chain_mono (rate : ℚ) (calls : List (ℚ × ℚ)) :
    ∀ last : ℚ, validCalls rate last calls = true →
    List.Chain' (fun a b => a ≤ b) (last :: runThrottle rate last calls) := by
  induction calls with
  | nil => intro last _; simp [runThrottle]
  | cons c rest ih =>
    intro last h
    obtain ⟨h1, h2, h3⟩ := validCalls_cons h
    simp only [runThrottle]
    rw [List.chain'_cons]
    exact ⟨throttle_step_mono rate last c.1 c.2 h1 h2, ih _ h3⟩

/-! ### Shared concrete test fixtures -/

/-- A constructed client with the default base URL and rate ceiling. -/
def testClient : GitHubClient :=
  { token := "tok"
    baseURL := "https://api.github.com"
    rateLimit := 10
    lastRequestTime := 0
    rateLimitInfo := none }

/-! ### Claim theorems -/

/-- C7: when no authentication token is provided in explicit configuration
and no environment fallback is present, client construction fails with the
configuration error (before any network activity: construction performs
none), and no client instance results. -/
theorem C7_missing_token_fails (config : Option GitHubClientConfig)
    (env : Option String) (hconf : config.bind (·.token) = none)
    (henv : env = none) :
    mkClient config env = Except.error tokenRequiredMsg := by
  subst henv
  simp [mkClient, hconf, strTruthy]

/-- C7 witness: `new GitHubClient()` with `GITHUB_TOKEN` unset fails with
the configuration error. -/
theorem C7_missing_token_fails_witness :
    mkClient none none = Except.error tokenRequiredMsg :=
  C7_missing_token_fails none none rfl rfl

/-- C10: an explicitly configured empty-string token is treated exactly as
an absent token — construction behaves identically to a configuration with
no token, falls back to the environment token, fails only when that
fallback is also falsy, and no constructed client ever holds an
empty-string token. -/
theorem C10_empty_token_as_absent (b : Option String) (r : Option ℚ)
    (env : Option String) :
    mkClient (some ⟨some "", b, r⟩) env = mkClient (some ⟨none, b, r⟩) env
    ∧ (strTruthy env = true → ∃ cl,
        mkClient (some ⟨some "", b, r⟩) env = Except.ok cl ∧ cl.token = env.getD "")
    ∧ (strTruthy env = false →
        mkClient (some ⟨some "", b, r⟩) env = Except.error tokenRequiredMsg)
    ∧ (∀ config envT cl, mkClient config envT = Except.ok cl → cl.token ≠ "") := by
  refine ⟨?_, ?_, ?_, ?_⟩
  · simp [mkClient, strTruthy]
  · intro h
    cases env with
    | none => exact Bool.noConfusion h
    | some s =>
      have hm : mkClient (some ⟨some "", b, r⟩) (some s) =
          Except.ok
            { token := s
              baseURL := if strTruthy b then b.getD ""
                         else "https://api.github.com"
              rateLimit := if ratTruthy r then r.getD 0 else 10
              lastRequestTime := 0
              rateLimitInfo := none } := by
        have h0 : strTruthy (some "") = false := rfl
        simp [mkClient, h0, h]
      exact ⟨_, hm, rfl⟩
  · intro h
    have h0 : strTruthy (some "") = false := rfl
    simp [mkClient, h0, h]
  · intro config envT cl h
    unfold mkClient at h
    by_cases hs : strTruthy (if strTruthy (config.bind (·.token))
        then config.bind (·.token) else envT)
    · rw [if_pos hs] at h
      cases hv : (if strTruthy (config.bind (·.token))
          then config.bind (·.token) else envT) with
      | none => rw [hv] at hs; exact Bool.noConfusion hs
      | some s =>
        rw [hv] at hs h
        simp only [Except.ok.injEq] at h
        subst h
        simp only [strTruthy, bne_iff_ne, ne_eq, decide_eq_true_eq] at hs
        simpa using hs
    · rw [if_neg hs] at h
      exact Except.noConfusion h

/-- C10 witness: an empty configured token with a nonempty environment
token constructs a client holding the environment token. -/
theorem C10_empty_token_as_absent_witness :
    ∃ cl, mkClient (some ⟨some "", none, none⟩) (some "envtok") = Except.ok cl ∧
      cl.token = (some "envtok").getD "" :=
  (C10_empty_token_as_absent none none (some "envtok")).2.1 (by decide)

/-- C2 counterexample: the claim says a negative configured rate ceiling is
rejected at construction and that no client with a non-positive ceiling is
ever created; yet construction with `rateLimit: -5` succeeds and yields a
client whose rate ceiling is `-5`. -/
theorem C2_counterexample :
    mkClient (some ⟨some "t", none, some (-5)⟩) none =
      Except.ok
        { token := "t"
          baseURL := "https://api.github.com"
          rateLimit := -5
          lastRequestTime := 0
          rateLimitInfo := none } := rfl

/-- C2 amended: the constructor never rejects a rate ceiling.  A configured
ceiling of `0` (falsy) is silently replaced by the default `10`; any other
value — negative included — is accepted as the client's ceiling; the only
construction error is the missing-token error. -/
theorem C2_rate_ceiling (t : String) (b : Option String) (r : ℚ)
    (env : Option String) (ht : t ≠ "") :
    (∃ cl, mkClient (some ⟨some t, b, some r⟩) env = Except.ok cl ∧
      cl.rateLimit = (if r = 0 then 10 else r))
    ∧ (∀ config envT e, mkClient config envT = Except.error e →
        e = tokenRequiredMsg) := by
  constructor
  · have htr : strTruthy (some t) = true := by
      simp [strTruthy, ht]
    have hm : mkClient (some ⟨some t, b, some r⟩) env =
        Except.ok
          { token := t
            baseURL := if strTruthy b then b.getD ""
                       else "https://api.github.com"
            rateLimit := if ratTruthy (some r) then r else 10
            lastRequestTime := 0
            rateLimitInfo := none } := by
      simp [mkClient, htr]
    refine ⟨_, hm, ?_⟩
    by_cases hr : r = 0
    · simp [ratTruthy, hr]
    · simp [ratTruthy, hr]
  · intro config envT e h
    unfold mkClient at h
    by_cases hs : strTruthy (if strTruthy (config.bind (·.token))
        then config.bind (·.token) else envT)
    · rw [if_pos hs] at h
      exact Except.noConfusion h
    · rw [if_neg hs] at h
      simpa using h.symm

/-- C2 witness: a client with ceiling `-5` exists and the claim's amended
description holds at that input. -/
theorem C2_rate_ceiling_witness :
    ∃ cl, mkClient (some ⟨some "t", none, some (-5)⟩) none = Except.ok cl ∧
      cl.rateLimit = (if (-5 : ℚ) = 0 then 10 else -5) :=
  (C2_rate_ceiling "t" none (-5) none (by decide)).1

/-- C3 counterexample: the claim says invoking the list operation with only
the optional `page` parameter set produces a query string of exactly
`page=<value>`; with the set value `0` (falsy) the code omits the key
entirely and produces a bare path instead. -/
theorem C3_counterexample :
    listUserReposPath (some ⟨some 0, none, none, none⟩) ≠ "/user/repos?page=0" := by
  decide

/-- C3 amended: absent parameters contribute no key, and a present `page`
contributes its key exactly when it is truthy (nonzero): a nonzero page
alone yields exactly `page=<value>`, while the falsy value `0` — although
set — is omitted like an absent parameter. -/
theorem C3_query_assembly (p : Int) (hp : p ≠ 0) :
    listUserReposPath (some ⟨some p, none, none, none⟩) =
      "/user/repos?" ++ (formEncode "page" ++ "=" ++ formEncode (Int.repr p))
    ∧ listUserReposPath (some ⟨none, none, none, none⟩) = "/user/repos"
    ∧ listUserReposPath none = "/user/repos"
    ∧ listUserReposPath (some ⟨some 5, none, none, none⟩) = "/user/repos?page=5"
    ∧ listUserReposPath (some ⟨some 0, none, none, none⟩) = "/user/repos" := by
  refine ⟨?_, by decide, by decide, by decide, by decide⟩
  have htr : intTruthy (some p) = true := by
    simp [intTruthy, hp]
  have hfi : intTruthy none = false := rfl
  have hfs : strTruthy none = false := rfl
  have hq : queryToString [("page", Int.repr p)] =
      formEncode "page" ++ "=" ++ formEncode (Int.repr p) := rfl
  have hne : queryToString [("page", Int.repr p)] ≠ "" := by
    rw [hq]
    exact append_ne_empty_left _ _ (append_ne_empty_left _ "=" (by decide))
  have h5 : listUserReposPath (some ⟨some p, none, none, none⟩) =
      "/user/repos" ++ ("?" ++ queryToString [("page", Int.repr p)]) := by
    simp [listUserReposPath, htr, hfi, hfs, hne]
  rw [h5, hq, ← String.append_assoc]
  congr 1

/-- C3 witness: page `7` alone yields exactly the single `page` key. -/
theorem C3_query_assembly_witness :
    listUserReposPath (some ⟨some 7, none, none, none⟩) =
      "/user/repos?" ++ (formEncode "page" ++ "=" ++ formEncode (Int.repr 7)) :=
  (C3_query_assembly 7 (by decide)).1

/-- A header value that `parseInt` accepts is a present, nonempty (hence
truthy) header. -/
theorem strTruthy_of_parseIntJS {o : Option String} {n : Int}
    (h : parseIntJS (o.getD "") = some n) : strTruthy o = true := by
  cases o with
  | none =>
    rw [Option.getD_none, parseIntJS_empty] at h
    exact Option.noConfusion h
  | some s =>
    rw [Option.getD_some] at h
    have hs : s ≠ "" := parseIntJS_ne_empty h
    simp [strTruthy, hs]

/-- C1 counterexample: with all three quota headers present but the limit
header malformed (`"abc"`, not parseable as an integer), the claim says the
prior snapshot is left completely unchanged; the code instead overwrites it
(the limit component becoming `NaN`). -/
theorem C1_counterexample :
    (request ⟨"tok", "https://api.github.com", 10, 0, some ⟨some 1, some 2, some 3⟩⟩
        50 0 "GET" "/x" none []
        ⟨200, [("X-RateLimit-Limit", "abc"), ("X-RateLimit-Remaining", "5"),
               ("X-RateLimit-Reset", "6")], ""⟩).client.rateLimitInfo ≠
      some ⟨some 1, some 2, some 3⟩ := by
  decide

/-- C1 amended: the gate is presence-and-nonemptiness (truthiness) of all
three quota headers, not integer parseability.  When all three are truthy
the snapshot is overwritten wholesale with the three `parseInt` results —
a malformed value stored as `NaN` (`none`), not skipped; when any is
missing or empty the prior snapshot is untouched; in particular, when all
three parse as integers the snapshot is exactly those three integers.  In
every case no error is raised (the outcome is unaffected). -/
theorem C1_quota_capture (c : GitHubClient) (now slack : ℚ)
    (method path : String) (body : Option JsonVal)
    (custom : List (String × String)) (resp : HttpResponse) :
    ((strTruthy (getHeaderCI resp.headers "X-RateLimit-Limit") &&
      strTruthy (getHeaderCI resp.headers "X-RateLimit-Remaining") &&
      strTruthy (getHeaderCI resp.headers "X-RateLimit-Reset")) = true →
      (request c now slack method path body custom resp).client.rateLimitInfo =
        some
          { limit := parseIntJS ((getHeaderCI resp.headers "X-RateLimit-Limit").getD "")
            remaining := parseIntJS ((getHeaderCI resp.headers "X-RateLimit-Remaining").getD "")
            reset := parseIntJS ((getHeaderCI resp.headers "X-RateLimit-Reset").getD "") })
    ∧ ((strTruthy (getHeaderCI resp.headers "X-RateLimit-Limit") &&
        strTruthy (getHeaderCI resp.headers "X-RateLimit-Remaining") &&
        strTruthy (getHeaderCI resp.headers "X-RateLimit-Reset")) = false →
      (request c now slack method path body custom resp).client.rateLimitInfo =
        c.rateLimitInfo)
    ∧ (∀ li ri si : Int,
        parseIntJS ((getHeaderCI resp.headers "X-RateLimit-Limit").getD "") = some li →
        parseIntJS ((getHeaderCI resp.headers "X-RateLimit-Remaining").getD "") = some ri →
        parseIntJS ((getHeaderCI resp.headers "X-RateLimit-Reset").getD "") = some si →
        (request c now slack method path body custom resp).client.rateLimitInfo =
          some { limit := some li, remaining := some ri, reset := some si }) := by
  have key : ∀ (hcond : (strTruthy (getHeaderCI resp.headers "X-RateLimit-Limit") &&
      strTruthy (getHeaderCI resp.headers "X-RateLimit-Remaining") &&
      strTruthy (getHeaderCI resp.headers "X-RateLimit-Reset")) = true),
      (request c now slack method path body custom resp).client.rateLimitInfo =
        some
          { limit := parseIntJS ((getHeaderCI resp.headers "X-RateLimit-Limit").getD "")
            remaining := parseIntJS ((getHeaderCI resp.headers "X-RateLimit-Remaining").getD "")
            reset := parseIntJS ((getHeaderCI resp.headers "X-RateLimit-Reset").getD "") } := by
    intro hcond
    simp [request, hcond]
  refine ⟨key, ?_, ?_⟩
  · intro h
    simp [request, h]
  · intro li ri si h1 h2 h3
    have t1 := strTruthy_of_parseIntJS h1
    have t2 := strTruthy_of_parseIntJS h2
    have t3 := strTruthy_of_parseIntJS h3
    rw [key (by simp [t1, t2, t3]), h1, h2, h3]

/-- C1 witness: three well-formed headers overwrite the snapshot with
exactly the three parsed integers. -/
theorem C1_quota_capture_witness :
    (request testClient 50 0 "GET" "/x" none []
        ⟨200, [("X-RateLimit-Limit", "60"), ("X-RateLimit-Remaining", "59"),
               ("X-RateLimit-Reset", "1700000000")], ""⟩).client.rateLimitInfo =
      some { limit := some 60, remaining := some 59, reset := some 1700000000 } :=
  (C1_quota_capture testClient 50 0 "GET" "/x" none []
      ⟨200, [("X-RateLimit-Limit", "60"), ("X-RateLimit-Remaining", "59"),
             ("X-RateLimit-Reset", "1700000000")], ""⟩).2.2
    60 59 1700000000 (by decide) (by decide) (by decide)

/-- C4: with rate ceiling `N > 0`, a throttle call whose elapsed interval
is below `1000/N` ms sleeps exactly the remaining difference (and otherwise
sleeps zero); the stored timestamp is always rewritten to the clock reading
taken just before returning; every `request` goes through this update; and
along any realizable call sequence consecutive stored dispatch timestamps
are separated by at least `1000/N` ms — transitively, with no credit for
idle periods. -/
theorem C4_fixed_interval_pacing (rate last now slack : ℚ)
    (hr : 0 < rate) (hs : 0 ≤ slack) :
    (now - last < 1000 / rate →
      (rateLimitDelay rate last now slack).1 = 1000 / rate - (now - last))
    ∧ (1000 / rate ≤ now - last → (rateLimitDelay rate last now slack).1 = 0)
    ∧ (rateLimitDelay rate last now slack).2 =
        now + (rateLimitDelay rate last now slack).1 + slack
    ∧ (∀ (c : GitHubClient) (method path : String) (body : Option JsonVal)
        (custom : List (String × String)) (resp : HttpResponse),
        c.rateLimit = rate → c.lastRequestTime = last →
        (request c now slack method path body custom resp).client.lastRequestTime =
          (rateLimitDelay rate last now slack).2)
    ∧ (∀ calls : List (ℚ × ℚ),
        validCalls rate (rateLimitDelay rate last now slack).2 calls = true →
        List.Chain' (fun a b => a + 1000 / rate ≤ b)
          ((rateLimitDelay rate last now slack).2 ::
            runThrottle rate (rateLimitDelay rate last now slack).2 calls)) := by
  refine ⟨?_, ?_, ?_, ?_, ?_⟩
  · intro h
    unfold rateLimitDelay
    dsimp only
    rw [if_pos h]
  · intro h
    unfold rateLimitDelay
    dsimp only
    rw [if_neg (not_lt.mpr h)]
  · rfl
  · intro cl method path body custom resp h1 h2
    rw [← h1, ← h2]
    rfl
  · intro calls h
    exact runThrottle_chain_sep rate calls _ h

/-- C4 witness: ceiling 10/s, last dispatch at 0, call at 50 ms sleeps
exactly 50 ms, and a following call at 120 ms keeps dispatch timestamps at
least 100 ms apart. -/
theorem C4_fixed_interval_pacing_witness :
    (rateLimitDelay 10 0 50 0).1 = 1000 / 10 - (50 - 0)
    ∧ List.Chain' (fun a b => a + 1000 / 10 ≤ b)
        ((rateLimitDelay 10 0 50 0).2 ::
          runThrottle 10 (rateLimitDelay 10 0 50 0).2 [(120, 2)]) :=
  ⟨(C4_fixed_interval_pacing 10 0 50 0 (by norm_num) le_rfl).1 (by norm_num),
   (C4_fixed_interval_pacing 10 0 50 0 (by norm_num) le_rfl).2.2.2.2
     [(120, 2)] (by norm_num [validCalls, rateLimitDelay])⟩

/-- C9: the stored last-dispatch timestamp never decreases: one `request`
whose clock reading is at least the stored timestamp (and whose slack is
nonnegative) writes a value at least the previous one, and along any
realizable call sequence the successive stored values form a
non-decreasing chain. -/
theorem C9_timestamp_monotone (c : GitHubClient) (now slack : ℚ)
    (method path : String) (body : Option JsonVal)
    (custom : List (String × String)) (resp : HttpResponse)
    (hnow : c.lastRequestTime ≤ now) (hs : 0 ≤ slack) :
    c.lastRequestTime ≤
      (request c now slack method path body custom resp).client.lastRequestTime
    ∧ (∀ (rate last : ℚ) (calls : List (ℚ × ℚ)),
        validCalls rate last calls = true →
        List.Chain' (fun a b => a ≤ b) (last :: runThrottle rate last calls)) := by
  constructor
  · have hdef : (request c now slack method path body custom resp).client.lastRequestTime =
        (rateLimitDelay c.rateLimit c.lastRequestTime now slack).2 := rfl
    rw [hdef]
    exact throttle_step_mono _ _ _ _ hnow hs
  · intro rate last calls h
    exact runThrottle_chain_mono rate calls last h

/-- C9 witness: a first call at 50 ms on a fresh client does not decrease
the stored timestamp. -/
theorem C9_timestamp_monotone_witness :
    testClient.lastRequestTime ≤
      (request testClient 50 0 "GET" "/x" none [] ⟨200, [], ""⟩).client.lastRequestTime :=
  (C9_timestamp_monotone testClient 50 0 "GET" "/x" none [] ⟨200, [], ""⟩
    (by norm_num [testClient]) le_rfl).1

theorem containsSubstr_append_right (x y : String) :
    containsSubstr (x ++ y) y = true := by
  unfold containsSubstr
  rw [String.data_append]
  have h := hasSubstrChars_append x.data y.data []
  simpa using h

/-- C5 counterexample: for status 404 and body `\x7b"message": ""\x7d` the
parsed value carries a `message` field (the empty string), so per the claim
the extracted failure message is that field and the surfaced message is the
fixed format with it; the code instead falls back to the raw body text
because the field is falsy. -/
theorem C5_counterexample :
    classifyError 404 "\x7b\"message\": \"\"\x7d" ≠
      "GitHub API error (404): " := by
  decide

/-- C5 amended: the surfaced failure message embeds the numeric status and
the extracted message for every non-success status through one extraction
path; the extracted message is the `message` field only when the body
parses as JSON and that field is truthy (e.g. a non-empty string) — a
present but falsy `message` (such as the empty string) falls back to the
raw body text, as do an absent field and an unparseable body. -/
theorem C5_error_classification (status : Nat) (body : String) :
    containsSubstr (classifyError status body) (Nat.repr status) = true
    ∧ containsSubstr (classifyError status body) (extractErrorMessage body) = true
    ∧ (∀ v m, jsonParse body = some v → jsGetMember v "message" = some m →
        jsTruthy m = true →
        classifyError status body =
          "GitHub API error (" ++ Nat.repr status ++ "): " ++ jsToDisplayString m)
    ∧ (∀ v, jsonParse body = some v → jsGetMember v "message" = none →
        classifyError status body =
          "GitHub API error (" ++ Nat.repr status ++ "): " ++ body)
    ∧ (∀ v m, jsonParse body = some v → jsGetMember v "message" = some m →
        jsTruthy m = false →
        classifyError status body =
          "GitHub API error (" ++ Nat.repr status ++ "): " ++ body)
    ∧ (jsonParse body = none →
        classifyError status body =
          "GitHub API error (" ++ Nat.repr status ++ "): " ++ body)
    ∧ classifyError 404 "\x7b\"message\": \"Not Found\"\x7d" =
        "GitHub API error (404): Not Found"
    ∧ classifyError 500 "Server Error" = "GitHub API error (500): Server Error" := by
  refine ⟨?_, ?_, ?_, ?_, ?_, ?_, by decide, by decide⟩
  · have h : classifyError status body =
        "GitHub API error (" ++
          (Nat.repr status ++ ("): " ++ extractErrorMessage body)) := by
      unfold classifyError
      rw [String.append_assoc, String.append_assoc]
    rw [h]
    exact containsSubstr_append_middle _ _ _
  · exact containsSubstr_append_right _ _
  · intro v m hv hm ht
    simp [classifyError, extractErrorMessage, hv, hm, ht]
  · intro v hv hm
    simp [classifyError, extractErrorMessage, hv, hm]
  · intro v m hv hm ht
    simp [classifyError, extractErrorMessage, hv, hm, ht]
  · intro hv
    simp [classifyError, extractErrorMessage, hv]

/-- C5 witness: the 404 / `message: "Not Found"` case goes through the
truthy-field branch of the theorem. -/
theorem C5_error_classification_witness :
    classifyError 404 "\x7b\"message\": \"Not Found\"\x7d" =
      "GitHub API error (" ++ Nat.repr 404 ++ "): " ++
        jsToDisplayString (JsonVal.str "Not Found") :=
  (C5_error_classification 404 "\x7b\"message\": \"Not Found\"\x7d").2.2.1
    (JsonVal.obj [("message", JsonVal.str "Not Found")]) (JsonVal.str "Not Found")
    rfl rfl rfl

/-- C6: on a successful response the decoding rule depends only on the
declared content type: a content type containing `application/json` makes
the body be JSON-parsed and the decoded value returned (a parse failure
propagating as the `response.json()` rejection), and any other — or
absent — content type makes the raw body text be returned literally. -/
theorem C6_content_type_decoding (c : GitHubClient) (now slack : ℚ)
    (method path : String) (body : Option JsonVal)
    (custom : List (String × String)) (resp : HttpResponse)
    (hok : responseOk resp.status = true) :
    (∀ ct, getHeaderCI resp.headers "content-type" = some ct →
      containsSubstr ct "application/json" = true →
      (request c now slack method path body custom resp).outcome =
        (match jsonParse resp.body with
         | some v => RequestOutcome.ok v
         | none => RequestOutcome.jsonSyntaxError))
    ∧ (∀ ct, getHeaderCI resp.headers "content-type" = some ct →
      containsSubstr ct "application/json" = false →
      (request c now slack method path body custom resp).outcome =
        RequestOutcome.okText resp.body)
    ∧ (getHeaderCI resp.headers "content-type" = none →
      (request c now slack method path body custom resp).outcome =
        RequestOutcome.okText resp.body) := by
  refine ⟨?_, ?_, ?_⟩
  · intro ct hct hj
    simp [request, hok, hct, hj]
  · intro ct hct hj
    simp [request, hok, hct, hj]
  · intro h
    simp [request, hok, h]

/-- C6 witness: a JSON content type decodes `\x7b"id": 1\x7d` to the
mapping with the single member `id`, and a plain-text content type returns
`hello` literally. -/
theorem C6_content_type_decoding_witness :
    (request testClient 50 0 "GET" "/x" none []
        ⟨200, [("content-type", "application/json")], "\x7b\"id\": 1\x7d"⟩).outcome =
      RequestOutcome.ok (JsonVal.obj [("id", JsonVal.num "1")])
    ∧ (request testClient 50 0 "GET" "/x" none []
        ⟨200, [("content-type", "text/plain")], "hello"⟩).outcome =
      RequestOutcome.okText "hello" :=
  ⟨(C6_content_type_decoding testClient 50 0 "GET" "/x" none []
      ⟨200, [("content-type", "application/json")], "\x7b\"id\": 1\x7d"⟩ rfl).1
      "application/json" rfl rfl,
   (C6_content_type_decoding testClient 50 0 "GET" "/x" none []
      ⟨200, [("content-type", "text/plain")], "hello"⟩ rfl).2.1
      "text/plain" rfl rfl⟩

/-- C8: every dispatched request emits its throttle step before its
transport dispatch; the dispatched headers carry `Authorization: Bearer
<token>`, the pinned JSON `Accept` and the API-version pin whenever the
custom headers do not name them, and a custom header naming one of them
wins without dropping the others. -/
theorem C8_request_invariants (c : GitHubClient) (now slack : ℚ)
    (method path : String) (body : Option JsonVal)
    (custom : List (String × String)) (resp : HttpResponse)
    (hnd : (custom.map Prod.fst).Nodup) :
    ∃ s d, (request c now slack method path body custom resp).trace =
        [Event.throttle s, Event.dispatch d]
      ∧ d.url = c.baseURL ++ path
      ∧ d.method = method
      ∧ (jsObjGet custom "Authorization" = none →
          jsObjGet d.headers "Authorization" = some ("Bearer " ++ c.token))
      ∧ (jsObjGet custom "Accept" = none →
          jsObjGet d.headers "Accept" = some "application/vnd.github+json")
      ∧ (jsObjGet custom "X-GitHub-Api-Version" = none →
          jsObjGet d.headers "X-GitHub-Api-Version" = some "2022-11-28")
      ∧ (∀ v, jsObjGet custom "Authorization" = some v →
          jsObjGet d.headers "Authorization" = some v)
      ∧ (∀ v, jsObjGet custom "Accept" = some v →
          jsObjGet d.headers "Accept" = some v)
      ∧ (∀ v, jsObjGet custom "X-GitHub-Api-Version" = some v →
          jsObjGet d.headers "X-GitHub-Api-Version" = some v) := by
  refine ⟨_, _, rfl, rfl, rfl, ?_, ?_, ?_, ?_, ?_, ?_⟩
  · intro h
    rw [buildHeaders_get_not_content_type _ _ _ _ (by decide),
      jsObjMerge_get_of_none _ _ _ h]
    simp [defaultHeaders, jsObjGet]
  · intro h
    rw [buildHeaders_get_not_content_type _ _ _ _ (by decide),
      jsObjMerge_get_of_none _ _ _ h]
    simp [defaultHeaders, jsObjGet]
  · intro h
    rw [buildHeaders_get_not_content_type _ _ _ _ (by decide),
      jsObjMerge_get_of_none _ _ _ h]
    simp [defaultHeaders, jsObjGet]
  · intro v h
    rw [buildHeaders_get_not_content_type _ _ _ _ (by decide)]
    exact jsObjMerge_get_of_some _ _ _ _ hnd h
  · intro v h
    rw [buildHeaders_get_not_content_type _ _ _ _ (by decide)]
    exact jsObjMerge_get_of_some _ _ _ _ hnd h
  · intro v h
    rw [buildHeaders_get_not_content_type _ _ _ _ (by decide)]
    exact jsObjMerge_get_of_some _ _ _ _ hnd h

/-- C8 witness: with a custom `Accept` override the dispatched headers
carry the override's value while the bearer credential default is
untouched, and the throttle event precedes the dispatch. -/
theorem C8_request_invariants_witness :
    ∃ s d, (request testClient 50 0 "GET" "/x" none
        [("Accept", "application/vnd.github.raw")] ⟨200, [], "ok"⟩).trace =
        [Event.throttle s, Event.dispatch d]
      ∧ jsObjGet d.headers "Accept" = some "application/vnd.github.raw"
      ∧ jsObjGet d.headers "Authorization" = some ("Bearer " ++ testClient.token) := by
  obtain ⟨s, d, htr, _, _, hauth, _, _, _, hacc, _⟩ :=
    C8_request_invariants testClient 50 0 "GET" "/x" none
      [("Accept", "application/vnd.github.raw")] ⟨200, [], "ok"⟩ (by decide)
  exact ⟨s, d, htr, hacc _ rfl, hauth rfl⟩
